import Mathlib

/-!
Verification of the Lurker sensor-node design against its configuration
(`src/Code/LurkerNano/settings.h`) and the component contracts of the
design document.  Constants are transcribed from `settings.h`; components
whose implementation lives in `LurkerNano.ino` (absent from the sources,
only declared in the Visual Micro header) are modelled from the design
document's wording, each such definition marked in its doc comment.
-/

namespace Lurker

/-! ### Constants from src/Code/LurkerNano/settings.h -/

def COORDINATOR : Nat := 0

def NETWORK_RESET_INTERVAL : Nat := 300000

def MAX_NETWORK_SIZE : Nat := 10

def UNIT_NUMBER : Nat := 2

def SAMPLE_INTERVAL : Nat := 20000

def MOTION_INITIALISATION_TIME : Nat := 2000

def MOTION_COOLOFF : Nat := SAMPLE_INTERVAL

def MOTION_CHECK_INTERVAL : Nat := 100

def NETWORK_JOIN_INTERVAL : Nat := 60000

def BROADCAST_PIPE : Nat := 0x90909090FF

def BASE_PIPE : Nat := 0x9090909000

def UNIT_PIPE : Nat := BASE_PIPE + UNIT_NUMBER

def PACKET_START : Char := '#'

def PACKET_END : Char := '$'

def DIVIDER : Char := ','

def NETWORK_JOIN_REQUEST : Char := 'j'

def NETWORK_JOIN_CONFIRM : Char := 'J'

def NETWORK_CONNECTION_RESET : Char := 'R'

def DATA_PACKET_REQUEST : Char := 'D'

def DATA_PACKET_RESPONSE : Char := 'd'

def UNIT_ID_CODE : Char := 'Z'

def TEMPERATURE_CODE : Char := 'T'

def HUMIDITY_CODE : Char := 'H'

def ILLUMINANCE_CODE : Char := 'I'

def MOTION_CODE : Char := 'M'

def BUZZER_ON_CODE : Char := 'B'

def BUZZER_OFF_CODE : Char := 'b'

def LIGHT_ON_CODE : Char := 'L'

def LIGHT_OFF_CODE : Char := 'l'

/-- The fourteen one-character message type codes, in the order they are
declared in `settings.h`. -/
def messageTypeCodes : List Char :=
  [NETWORK_JOIN_REQUEST, NETWORK_JOIN_CONFIRM, NETWORK_CONNECTION_RESET,
   DATA_PACKET_REQUEST, DATA_PACKET_RESPONSE,
   UNIT_ID_CODE, TEMPERATURE_CODE, HUMIDITY_CODE, ILLUMINANCE_CODE, MOTION_CODE,
   BUZZER_ON_CODE, BUZZER_OFF_CODE, LIGHT_ON_CODE, LIGHT_OFF_CODE]

/-! ### Pipe addressing -/

/-- Per-unit pipe address assignment: `base + id`, as in
`const long UNIT_PIPE = BASE_PIPE + UNIT_NUMBER`. -/
def unitPipeFor (id : Nat) : Nat := BASE_PIPE + id

/-- All addresses in play on the network: broadcast, the coordinator address
(`base + 0`), and the unit addresses `base + 1 .. base + (MAX_NETWORK_SIZE - 1)`. -/
def networkPipes : List Nat :=
  BROADCAST_PIPE :: (BASE_PIPE + COORDINATOR) ::
    (List.range' 1 (MAX_NETWORK_SIZE - 1)).map unitPipeFor

/-! ### Packet codec

Modelled from the spec: `encode`/`decode` live in `LurkerNano.ino`, which is
not among the sources; only declarations (`toSendBuffer`, `floatToInt`, …)
survive.  The model follows the design document's codec contract:
`encode(message) -> START <type><DIVIDER>field1<DIVIDER>field2...END`, with
decode failing on missing or nested markers and on unknown type codes. -/

structure Message where
  msgType : Char
  fields : List (List Char)
deriving DecidableEq, Repr

/-- A byte that may appear inside a field payload: anything that is not one
of the three frame delimiters. -/
def validChar (c : Char) : Bool :=
  (c != PACKET_START) && (c != PACKET_END) && (c != DIVIDER)

/-- A message the codec contract covers: a recognised type code and fields
free of the delimiter characters. -/
def validMessage (m : Message) : Prop :=
  m.msgType ∈ messageTypeCodes ∧ ∀ f ∈ m.fields, ∀ c ∈ f, validChar c = true

instance (m : Message) : Decidable (validMessage m) := by
  unfold validMessage; infer_instance

/-- Modelled from the spec: the field-sequence part of an encoded frame,
each field introduced by the divider. -/
def joinFields : List (List Char) → List Char
  | [] => []
  | f :: fs => (DIVIDER :: f) ++ joinFields fs

/-- Modelled from the spec: `encode(message) -> byte sequence` producing
`START <type><DIVIDER>field1<DIVIDER>field2...END`. -/
def encode (m : Message) : List Char :=
  (PACKET_START :: m.msgType :: joinFields m.fields) ++ [PACKET_END]

/-- A byte allowed strictly inside a frame body (between the start marker
and the end marker): markers may be neither missing nor nested. -/
def validBodyChar (c : Char) : Bool :=
  (c != PACKET_START) && (c != PACKET_END)

/-- Split the field bytes of a frame body at each divider, returning the
first field and the remaining fields. -/
def splitFields : List Char → List Char × List (List Char)
  | [] => ([], [])
  | c :: rest =>
    if c = DIVIDER then ([], (splitFields rest).1 :: (splitFields rest).2)
    else (c :: (splitFields rest).1, (splitFields rest).2)

/-- Modelled from the spec: `decode(byte sequence) -> Message | FrameError`,
failing (with `none`) when the start or end markers are missing or nested,
or when the type code is unrecognised. -/
def decode (bs : List Char) : Option Message :=
  match bs with
  | first :: t :: rest =>
    match rest.reverse with
    | [] => none
    | last :: revBody =>
      if first = PACKET_START ∧ last = PACKET_END ∧ t ∈ messageTypeCodes ∧
          revBody.reverse.all validBodyChar = true then
        match revBody.reverse with
        | [] => some ⟨t, []⟩
        | d :: fieldBytes =>
          if d = DIVIDER then
            some ⟨t, (splitFields fieldBytes).1 :: (splitFields fieldBytes).2⟩
          else none
      else none
  | _ => none

/-! ### Wire grammar (spec side)

These definitions transcribe the external-interface grammar of the design
document literally — `frame := "#" type field* "$"`, `field := "," payload`,
`type ∈ {j, J, R, D, d, Z, T, H, I, M, B, b, L, l}` — so that conformance of
the encoder and of the configured constants can be stated against the
grammar rather than against the encoder itself. -/

def grammarPayloadChar (c : Char) : Bool :=
  (c != '#') && (c != '$') && (c != ',')

inductive FieldSeq : List Char → Prop where
  | nil : FieldSeq []
  | cons (payload rest : List Char) :
      (∀ c ∈ payload, grammarPayloadChar c = true) → FieldSeq rest →
      FieldSeq ((',' :: payload) ++ rest)

/-- `frame := "#" type field* "$"` with the fourteen literal type codes. -/
def matchesWireGrammar (bs : List Char) : Prop :=
  ∃ t body,
    t ∈ ['j', 'J', 'R', 'D', 'd', 'Z', 'T', 'H', 'I', 'M', 'B', 'b', 'L', 'l'] ∧
    FieldSeq body ∧ bs = '#' :: t :: (body ++ ['$'])

/-! ### Fixed-point transmission of sensor readings

Modelled from the spec: `floatToInt` is declared in the Visual Micro header
but its body is in the missing `LurkerNano.ino`.  The design document says
floats are pre-scaled to integers by a caller-supplied decimal shift, with
`decimalShift` decimal digits of precision preserved (shift=2 turns 21.37
into 2137), and the receiver re-scales.  Readings are modelled as exact
rationals. -/

def floatToInt (num : ℚ) (decimalShift : Nat) : ℤ :=
  ⌊num * (10 : ℚ) ^ decimalShift⌋

/-- ASCII decimal text of a (non-negative) scaled reading, as placed in a
frame field. -/
def intToField (z : ℤ) : List Char := Nat.toDigits 10 z.toNat

/-- The receiver's parse of an ASCII decimal field payload. -/
def parseDecimal (cs : List Char) : Nat :=
  cs.foldl (fun acc c => 10 * acc + (c.toNat - 48)) 0

/-- The receiver's re-scaling of a decoded integer field back to a reading. -/
def rescale (n : Nat) (decimalShift : Nat) : ℚ :=
  (n : ℚ) / (10 : ℚ) ^ decimalShift

/-! ### Sensor scheduler: motion debounce

Modelled from the spec: `checkMovement` / `sendMotionNotification` are
declared in the Visual Micro header but implemented in the missing
`LurkerNano.ino`.  The model follows §4.4 of the design document: on a
detection, if the debounce state is outside the startup initialisation
window and not cooling, a notification is emitted and the state enters
cooling for `MOTION_COOLOFF`; detections while cooling or during the
initialisation window are suppressed. -/

structure MotionState where
  armedAt : Nat
  lastTrigger : Option Nat
deriving DecidableEq, Repr

def initialMotionState (armedAt : Nat) : MotionState :=
  { armedAt := armedAt, lastTrigger := none }

/-- `now - last-trigger < cooloff`: the debounce state is cooling. -/
def coolingAt (s : MotionState) (now : Nat) : Bool :=
  match s.lastTrigger with
  | none => false
  | some t => decide (now - t < MOTION_COOLOFF)

/-- The startup initialisation window after arming. -/
def inInitWindow (s : MotionState) (now : Nat) : Bool :=
  decide (now - s.armedAt < MOTION_INITIALISATION_TIME)

/-- Modelled from the spec: one motion poll.  Returns the next debounce
state and whether a motion notification is emitted at `now`. -/
def checkMovement (s : MotionState) (now : Nat) (detected : Bool) :
    MotionState × Bool :=
  if detected = true ∧ inInitWindow s now = false ∧ coolingAt s now = false then
    ({ s with lastTrigger := some now }, true)
  else (s, false)

/-- Run the motion scheduler over a trace of polls `(time, detected)`,
collecting the times at which a notification is emitted. -/
def runMotion (s : MotionState) : List (Nat × Bool) → List Nat
  | [] => []
  | ev :: rest =>
    if (checkMovement s ev.1 ev.2).2 then
      ev.1 :: runMotion (checkMovement s ev.1 ev.2).1 rest
    else
      runMotion (checkMovement s ev.1 ev.2).1 rest

/-! ### Network session and dispatcher

Modelled from the spec: the session state machine (§4.3) and the
dispatcher's handling of received packets (§4.5) are implemented in the
missing `LurkerNano.ino`; only `handleIncomingPacket` /
`processReceivedPacket` declarations survive. -/

inductive SessionState where
  | Unjoined : SessionState
  | Joining : SessionState
  | Joined : Nat → SessionState
deriving DecidableEq, Repr

structure NodeState where
  session : SessionState
  sendBuf : List Char
deriving DecidableEq, Repr

/-- Modelled from the spec: dispatch one received, already-decoded message.
A data-request triggers an immediate assembly and send of the current
readings — unless the session is `Unjoined`, in which case it is ignored
(no valid address to answer from).  Join-confirm and connection-reset
frames drive the session state machine.  Returns the node state and the
list of frames emitted in response. -/
def processReceivedPacket (ns : NodeState) (now : Nat) (msg : Message)
    (readings : Message) : NodeState × List (List Char) :=
  if msg.msgType = DATA_PACKET_REQUEST then
    match ns.session with
    | SessionState.Unjoined => (ns, [])
    | _ => ({ ns with sendBuf := encode readings }, [encode readings])
  else if msg.msgType = NETWORK_JOIN_CONFIRM then
    ({ ns with session := SessionState.Joined now }, [])
  else if msg.msgType = NETWORK_CONNECTION_RESET then
    ({ session := SessionState.Unjoined, sendBuf := [] }, [])
  else (ns, [])

/-- Modelled from the spec: the session-expiry check run on each tick.
A `Joined` session with no renewal within `NETWORK_RESET_INTERVAL`
transitions to `Unjoined`; any other state is left untouched by this
check. -/
def resetTick (st : SessionState) (now : Nat) : SessionState :=
  match st with
  | SessionState.Joined lastRenewal =>
    if NETWORK_RESET_INTERVAL ≤ now - lastRenewal then SessionState.Unjoined
    else SessionState.Joined lastRenewal
  | s => s

/-! ### Codec lemmas -/

lemma validChar_body {c : Char} (h : validChar c = true) :
    validBodyChar c = true := by
  simp only [validChar, Bool.and_eq_true] at h
  simp only [validBodyChar, Bool.and_eq_true]
  tauto

lemma validChar_ne_divider {c : Char} (h : validChar c = true) :
    c ≠ DIVIDER := by
  simp only [validChar, Bool.and_eq_true, bne_iff_ne] at h
  tauto

lemma joinFields_all (fs : List (List Char))
    (h : ∀ f ∈ fs, ∀ c ∈ f, validChar c = true) :
    (joinFields fs).all validBodyChar = true := by
  induction fs with
  | nil => rfl
  | cons f fs ih =>
    simp only [joinFields, List.cons_append, List.all_cons, List.all_append,
      Bool.and_eq_true]
    refine ⟨by decide, ?_, ?_⟩
    · rw [List.all_eq_true]
      exact fun c hc => validChar_body (h f (by simp) c hc)
    · exact ih fun g hg c hc => h g (by simp [hg]) c hc

lemma splitFields_append (f rest : List Char) (hf : ∀ c ∈ f, c ≠ DIVIDER) :
    splitFields (f ++ rest) =
      (f ++ (splitFields rest).1, (splitFields rest).2) := by
  induction f with
  | nil => simp
  | cons c cs ih =>
    have hc : c ≠ DIVIDER := hf c (by simp)
    have ih2 := ih fun x hx => hf x (by simp [hx])
    simp [splitFields, hc, ih2]

lemma splitFields_joinFields (fs : List (List Char)) :
    ∀ f, (∀ c ∈ f, c ≠ DIVIDER) → (∀ g ∈ fs, ∀ c ∈ g, c ≠ DIVIDER) →
      splitFields (f ++ joinFields fs) = (f, fs) := by
  induction fs with
  | nil =>
    intro f hf _
    simpa [joinFields, splitFields] using splitFields_append f [] hf
  | cons g gs ih =>
    intro f hf hfs
    have hR := ih g (hfs g (by simp)) fun x hx => hfs x (by simp [hx])
    have hstep : splitFields (joinFields (g :: gs)) = ([], g :: gs) := by
      simp [joinFields, splitFields, hR]
    rw [splitFields_append f _ hf, hstep]
    simp

/-- C1: decoding the byte sequence produced by encoding a valid message
yields the message again — `decode(encode(m)) = m`, with the frame built
from the configured start marker, divider and end marker. -/
theorem decode_encode_roundtrip (m : Message) (h : validMessage m) :
    decode (encode m) = some m := by
  obtain ⟨t, fields⟩ := m
  obtain ⟨ht, hf⟩ := h
  have hall : (joinFields fields).all validBodyChar = true := joinFields_all fields hf
  show decode ((PACKET_START :: t :: joinFields fields) ++ [PACKET_END]) = _
  rw [List.cons_append, List.cons_append, decode]
  simp only [List.reverse_append, List.reverse_cons, List.reverse_nil,
    List.nil_append, List.singleton_append, List.reverse_reverse]
  rw [if_pos ⟨trivial, trivial, ht, hall⟩]
  cases fields with
  | nil => rfl
  | cons f fs =>
    have hsplit : splitFields (f ++ joinFields fs) = (f, fs) :=
      splitFields_joinFields fs f
        (fun c hc => validChar_ne_divider (hf f (by simp) c hc))
        (fun g hg c hc => validChar_ne_divider (hf g (by simp [hg]) c hc))
    simp [joinFields, hsplit]

/-- C1 witness: the round-trip at a concrete data-response message with one
field. -/
theorem decode_encode_roundtrip_witness :
    decode (encode ⟨'T', [['2', '1', '3', '7']]⟩) =
      some ⟨'T', [['2', '1', '3', '7']]⟩ :=
  decode_encode_roundtrip ⟨'T', [['2', '1', '3', '7']]⟩ (by decide)

/-! ### Wire-grammar conformance -/

lemma fieldSeq_joinFields (fs : List (List Char))
    (h : ∀ f ∈ fs, ∀ c ∈ f, validChar c = true) :
    FieldSeq (joinFields fs) := by
  induction fs with
  | nil => exact FieldSeq.nil
  | cons f fs ih =>
    have hpay : ∀ c ∈ f, grammarPayloadChar c = true := by
      intro c hc
      have := h f (by simp) c hc
      simpa [validChar, PACKET_START, PACKET_END, DIVIDER,
        grammarPayloadChar] using this
    have : joinFields (f :: fs) = (',' :: f) ++ joinFields fs := rfl
    rw [this]
    exact FieldSeq.cons f (joinFields fs) hpay
      (ih fun g hg c hc => h g (by simp [hg]) c hc)

/-- C2: every frame the encoder produces for a valid message conforms to
the wire grammar `frame := "#" type field* "$"` with a type code drawn from
the fourteen-code set, and the configured constants realise exactly the
markers `#`, `$`, `,` and exactly those fourteen type codes. -/
theorem encode_matches_wire_grammar (m : Message) (h : validMessage m) :
    matchesWireGrammar (encode m) ∧
    PACKET_START = '#' ∧ PACKET_END = '$' ∧ DIVIDER = ',' ∧
    messageTypeCodes =
      ['j', 'J', 'R', 'D', 'd', 'Z', 'T', 'H', 'I', 'M', 'B', 'b', 'L', 'l'] := by
  refine ⟨?_, rfl, rfl, rfl, rfl⟩
  refine ⟨m.msgType, joinFields m.fields, ?_, fieldSeq_joinFields m.fields h.2, rfl⟩
  exact h.1

/-- C2 witness: grammar conformance at a concrete motion-notification
message. -/
theorem encode_matches_wire_grammar_witness :
    matchesWireGrammar (encode ⟨'M', [['1']]⟩) ∧
    PACKET_START = '#' ∧ PACKET_END = '$' ∧ DIVIDER = ',' ∧
    messageTypeCodes =
      ['j', 'J', 'R', 'D', 'd', 'Z', 'T', 'H', 'I', 'M', 'B', 'b', 'L', 'l'] :=
  encode_matches_wire_grammar ⟨'M', [['1']]⟩ (by decide)

/-! ### Pipe addressing -/

/-- C3: the broadcast pipe, the coordinator pipe (`base + 0`) and the unit
pipes `base + 1 .. base + (MAX_NETWORK_SIZE - 1)` all fit in 40 bits and
are pairwise non-colliding; the configured `UNIT_PIPE` is the unit address
for `UNIT_NUMBER = 2`; and distinctness survives truncation to a 32-bit
platform `long`. -/
theorem pipe_addresses_distinct :
    UNIT_PIPE = unitPipeFor UNIT_NUMBER ∧
    UNIT_PIPE ∈ networkPipes ∧
    networkPipes.all (fun p => decide (p < 2 ^ 40)) = true ∧
    networkPipes.Nodup ∧
    (networkPipes.map (fun p => p % 2 ^ 32)).Nodup := by
  decide

/-! ### Configuration coupling and code distinctness -/

/-- C9: the configured motion cooloff is literally defined as the sampling
period — `MOTION_COOLOFF = SAMPLE_INTERVAL`, both 20000 ms — so the minimum
spacing between motion notifications coincides with the sampling
interval. -/
theorem motion_cooloff_eq_sample_interval :
    MOTION_COOLOFF = SAMPLE_INTERVAL ∧ MOTION_COOLOFF = 20000 ∧
    SAMPLE_INTERVAL = 20000 :=
  ⟨rfl, rfl, rfl⟩

/-- C10: the fourteen configured one-character type codes are pairwise
distinct, and none of them equals the start marker, the end marker or the
divider (`validChar` holds of each), so the type code of a well-formed
frame never collides with a frame delimiter. -/
theorem type_codes_distinct_from_delimiters :
    messageTypeCodes.Nodup ∧ messageTypeCodes.all validChar = true := by
  decide

/-! ### Motion debounce lemmas -/

lemma runMotion_armed (evs : List (Nat × Bool)) :
    ∀ s t, t ∈ runMotion s evs → MOTION_INITIALISATION_TIME ≤ t - s.armedAt := by
  induction evs with
  | nil => intro s t ht; simp [runMotion] at ht
  | cons ev rest ih =>
    intro s t ht
    simp only [runMotion] at ht
    by_cases hc : ev.2 = true ∧ inInitWindow s ev.1 = false ∧
        coolingAt s ev.1 = false
    · have hcm : checkMovement s ev.1 ev.2 =
          ({ s with lastTrigger := some ev.1 }, true) := by
        rw [checkMovement, if_pos hc]
      rw [hcm] at ht
      simp only [if_true, List.mem_cons] at ht
      rcases ht with h1 | h2
      · subst h1
        have hw : ¬ (ev.1 - s.armedAt < MOTION_INITIALISATION_TIME) := by
          simpa [inInitWindow] using hc.2.1
        exact Nat.le_of_not_lt hw
      · simpa using ih _ _ h2
    · have hcm : checkMovement s ev.1 ev.2 = (s, false) := by
        rw [checkMovement, if_neg hc]
      rw [hcm] at ht
      simp only [Bool.false_eq_true, if_false] at ht
      exact ih s t ht

lemma runMotion_lower (evs : List (Nat × Bool)) :
    ∀ s L, s.lastTrigger = some L →
      ∀ t ∈ runMotion s evs, L + MOTION_COOLOFF ≤ t := by
  induction evs with
  | nil => intro s L _ t ht; simp [runMotion] at ht
  | cons ev rest ih =>
    intro s L hL t ht
    simp only [runMotion] at ht
    by_cases hc : ev.2 = true ∧ inInitWindow s ev.1 = false ∧
        coolingAt s ev.1 = false
    · have hcm : checkMovement s ev.1 ev.2 =
          ({ s with lastTrigger := some ev.1 }, true) := by
        rw [checkMovement, if_pos hc]
      rw [hcm] at ht
      simp only [if_true, List.mem_cons] at ht
      have hcool : ¬ (ev.1 - L < MOTION_COOLOFF) := by
        simpa [coolingAt, hL] using hc.2.2
      have hpos : 0 < MOTION_COOLOFF := by decide
      rcases ht with h1 | h2
      · omega
      · have := ih _ ev.1 rfl t h2
        omega
    · have hcm : checkMovement s ev.1 ev.2 = (s, false) := by
        rw [checkMovement, if_neg hc]
      rw [hcm] at ht
      simp only [Bool.false_eq_true, if_false] at ht
      exact ih s L hL t ht

lemma runMotion_pairwise (evs : List (Nat × Bool)) :
    ∀ s, (runMotion s evs).Pairwise
      fun t t' => t < t' ∧ MOTION_COOLOFF ≤ t' - t := by
  induction evs with
  | nil => intro s; simp [runMotion]
  | cons ev rest ih =>
    intro s
    simp only [runMotion]
    by_cases hc : ev.2 = true ∧ inInitWindow s ev.1 = false ∧
        coolingAt s ev.1 = false
    · have hcm : checkMovement s ev.1 ev.2 =
          ({ s with lastTrigger := some ev.1 }, true) := by
        rw [checkMovement, if_pos hc]
      rw [hcm]
      simp only [if_true]
      refine List.Pairwise.cons ?_ (ih _)
      intro b hb
      have hlow := runMotion_lower rest _ ev.1 rfl b hb
      have hpos : 0 < MOTION_COOLOFF := by decide
      constructor <;> omega
    · have hcm : checkMovement s ev.1 ev.2 = (s, false) := by
        rw [checkMovement, if_neg hc]
      rw [hcm]
      simp only [Bool.false_eq_true, if_false]
      exact ih s

/-- C4: over any poll trace, motion notifications are emitted at most once
per `MOTION_COOLOFF` window — any two emission times `t < t'` are at least
`MOTION_COOLOFF` apart, no matter how many detections fall inside the
window. -/
theorem motion_cooloff_spacing (armedAt : Nat) (evs : List (Nat × Bool)) :
    (runMotion (initialMotionState armedAt) evs).Pairwise
      fun t t' => t < t' ∧ MOTION_COOLOFF ≤ t' - t :=
  runMotion_pairwise evs (initialMotionState armedAt)

/-- C5: no motion notification is ever emitted within
`MOTION_INITIALISATION_TIME` of arming the motion driver: every emission
time `t` satisfies `t - armedAt ≥ MOTION_INITIALISATION_TIME`. -/
theorem motion_init_suppression (armedAt : Nat) (evs : List (Nat × Bool))
    (t : Nat) (h : t ∈ runMotion (initialMotionState armedAt) evs) :
    ¬ (t - armedAt < MOTION_INITIALISATION_TIME) :=
  Nat.not_lt.mpr (runMotion_armed evs (initialMotionState armedAt) t h)

/-- C5 witness: the first detection at exactly the end of a 2000 ms
initialisation window is emitted, at a time outside the window. -/
theorem motion_init_suppression_witness :
    ¬ ((2000 : Nat) - 0 < MOTION_INITIALISATION_TIME) :=
  motion_init_suppression 0 [(2000, true)] 2000 (by decide)

/-! ### Session and dispatcher claims -/

/-- C6: a node whose session is `Unjoined` ignores a received data-request:
no response frame is emitted and the node state (session and send buffer)
is returned unchanged. -/
theorem unjoined_ignores_data_request (ns : NodeState) (now : Nat)
    (msg readings : Message) (hs : ns.session = SessionState.Unjoined)
    (hm : msg.msgType = DATA_PACKET_REQUEST) :
    processReceivedPacket ns now msg readings = (ns, []) := by
  simp only [processReceivedPacket, if_pos hm, hs]

/-- C6 witness: a concrete `Unjoined` node receiving a `D` frame. -/
theorem unjoined_ignores_data_request_witness :
    processReceivedPacket ⟨SessionState.Unjoined, []⟩ 5000 ⟨'D', []⟩
        ⟨'d', [['2', '1']]⟩ =
      (⟨SessionState.Unjoined, []⟩, []) :=
  unjoined_ignores_data_request ⟨SessionState.Unjoined, []⟩ 5000 ⟨'D', []⟩
    ⟨'d', [['2', '1']]⟩ rfl rfl

/-- C7: a `Joined` session with no renewal stays `Joined` strictly before
the `NETWORK_RESET_INTERVAL` deadline, transitions to `Unjoined` on the
first tick at or after the deadline, and every subsequent tick leaves
`Unjoined` unchanged (the transition happens exactly once). -/
theorem joined_reset_exactly_once (lastRenewal : Nat) :
    (∀ now, now - lastRenewal < NETWORK_RESET_INTERVAL →
      resetTick (SessionState.Joined lastRenewal) now =
        SessionState.Joined lastRenewal) ∧
    (∀ now, NETWORK_RESET_INTERVAL ≤ now - lastRenewal →
      resetTick (SessionState.Joined lastRenewal) now =
        SessionState.Unjoined) ∧
    (∀ later, resetTick SessionState.Unjoined later = SessionState.Unjoined) := by
  refine ⟨fun now h => ?_, fun now h => ?_, fun later => rfl⟩
  · simp only [resetTick]
    rw [if_neg (Nat.not_le.mpr h)]
  · simp only [resetTick]
    rw [if_pos h]

/-- C7 witness: a session joined at time 0 expires exactly at the 300000 ms
deadline, and a later tick on the resulting `Unjoined` state is a no-op. -/
theorem joined_reset_exactly_once_witness :
    resetTick (SessionState.Joined 0) 300000 = SessionState.Unjoined ∧
    resetTick SessionState.Unjoined 600000 = SessionState.Unjoined :=
  ⟨(joined_reset_exactly_once 0).2.1 300000 (by decide),
   (joined_reset_exactly_once 0).2.2 600000⟩

/-! ### Fixed-point scaling -/

/-- C8: `floatToInt(21.37, 2) = 2137`; the encoded field payload for that
reading is the ASCII text `"2137"`; the receiver's decode-and-rescale of
that payload reproduces 21.37; and in general `floatToInt` scales a reading
by `10 ^ decimalShift`, preserving `decimalShift` decimal digits exactly. -/
theorem floatToInt_scaling :
    floatToInt (2137 / 100) 2 = 2137 ∧
    intToField (floatToInt (2137 / 100) 2) = ['2', '1', '3', '7'] ∧
    rescale (parseDecimal ['2', '1', '3', '7']) 2 = 2137 / 100 ∧
    ∀ z : ℤ, ∀ s : Nat, floatToInt ((z : ℚ) / (10 : ℚ) ^ s) s = z := by
  have hgen : ∀ z : ℤ, ∀ s : Nat, floatToInt ((z : ℚ) / (10 : ℚ) ^ s) s = z := by
    intro z s
    have h10 : ((10 : ℚ) ^ s) ≠ 0 := by positivity
    rw [floatToInt, div_mul_cancel₀ _ h10, Int.floor_intCast]
  have h1 : floatToInt (2137 / 100) 2 = 2137 := by norm_num [floatToInt]
  have hp : parseDecimal ['2', '1', '3', '7'] = 2137 := by decide
  refine ⟨h1, ?_, ?_, hgen⟩
  · rw [h1]; decide
  · rw [hp, rescale]; norm_num

end Lurker
